import Mathlib

/-!
Shallow embedding of feeluown/app.py (class App) for the claims of the
specification.  Effectful Qt and player calls are modelled as traces of
explicit call events; exceptions are modelled as an Option String channel
(some tag means the exception tag propagates, none means normal return).
-/

namespace Feeluown

/-- A message shown through ui.magicbox.show_msg: its text and the timeout
keyword argument (none means the default timeout was used). -/
structure Msg where
  text : String
  timeout : Option Int
deriving DecidableEq, Repr

/-! ## closeEvent -/

/-- Behaviour of the player object during teardown: each field is some tag
when the corresponding method raises that exception, none when it returns
normally. -/
structure PlayerBehavior where
  stop : Option String
  shutdown : Option String
deriving DecidableEq, Repr

/-- Calls performed by App.closeEvent, in order. -/
inductive CloseCall where
  | playerStop
  | playerShutdown
  | appQuit
deriving DecidableEq, Repr

/-- App.closeEvent: inside one try block it calls player.stop() then
player.shutdown(); except Exception: pass; then QApplication.quit().
Returns the trace of calls and the propagating exception (always none,
since the except clause suppresses every Exception). -/
def closeEvent (p : PlayerBehavior) : List CloseCall × Option String :=
  let tryBlock : List CloseCall :=
    match p.stop with
    | some _ => [CloseCall.playerStop]
    | none => [CloseCall.playerStop, CloseCall.playerShutdown]
  (tryBlock ++ [CloseCall.appQuit], none)

/-! ## create_action -/

/-- Calls the body of a with create_action(s) block can make on the yielded
Action object. -/
inductive ActionCall where
  | set_progress (value : Rat)
  | failed
deriving DecidableEq, Repr

/-- Python int() on a rational: truncation toward zero. -/
def pyInt (q : Rat) : Int := if 0 ≤ q then ⌊q⌋ else ⌈q⌉

/-- The message shown by one method call on the Action object yielded by
create_action(s): set_progress shows s + ...int(value*100)% and failed
shows s + ...failed, both with timeout=-1. -/
def actionCallMsg (s : String) : ActionCall → Msg
  | ActionCall.set_progress value =>
      Msg.mk (s ++ "..." ++ toString (pyInt (value * 100)) ++ "%") (some (-1))
  | ActionCall.failed => Msg.mk (s ++ "...failed") (some (-1))

/-- One run of the body of a with create_action(s) block: the Action calls
it performs, in order, followed by its outcome (some tag when the body
raises that exception after those calls, none when it completes). -/
structure BodyRun where
  calls : List ActionCall
  outcome : Option String
deriving DecidableEq, Repr

/-- App.create_action(s): shows s + ... (timeout=-1) before the body runs;
runs the body; on normal completion shows s + ...done, on an exception
shows s + ...error and re-raises.  Returns the full message trace and the
propagating exception. -/
def create_action (s : String) (body : BodyRun) : List Msg × Option String :=
  let doing := [Msg.mk (s ++ "...") (some (-1))]
  let bodyMsgs := body.calls.map (actionCallMsg s)
  match body.outcome with
  | some e => (doing ++ bodyMsgs ++ [Msg.mk (s ++ "...error") none], some e)
  | none => (doing ++ bodyMsgs ++ [Msg.mk (s ++ "...done") none], none)

/-- Helper: the last element of a list extended by a singleton. -/
theorem getLast_append_singleton {α : Type} (l : List α) (a : α) :
    (l ++ [a]).getLast? = some a := by
  simp

/-- Helper: the last message of a create_action run whose body completes
normally is the done message. -/
theorem create_action_last_of_none (s : String) (calls : List ActionCall) :
    (create_action s (BodyRun.mk calls none)).1.getLast? =
      some (Msg.mk (s ++ "...done") none) :=
  getLast_append_singleton
    (Msg.mk (s ++ "...") (some (-1)) :: calls.map (actionCallMsg s)) _

/-- Helper: the last message of a create_action run whose body raises is
the error message. -/
theorem create_action_last_of_some (s : String) (calls : List ActionCall)
    (e : String) :
    (create_action s (BodyRun.mk calls (some e))).1.getLast? =
      some (Msg.mk (s ++ "...error") none) :=
  getLast_append_singleton
    (Msg.mk (s ++ "...") (some (-1)) :: calls.map (actionCallMsg s)) _

/-! ## scan_fuo_files -/

/-- The file system as seen through os.path.exists, os.path.isdir,
os.listdir and os.path.isfile. -/
structure FS where
  exists_ : String → Bool
  isdir : String → Bool
  listdir : String → List String
  isfile : String → Bool

/-- Python str.endswith, modelled at the character level. -/
def endswith (s ext : String) : Bool :=
  List.isSuffixOf ext.data s.data

/-- os.path.join for a directory and an entry of its listing (POSIX): an
absolute second component replaces the first, otherwise a slash separates
the components unless the first already ends with one. -/
def path_join (a b : String) : String :=
  if b.data.head? = some '/' then b
  else if a.data = [] ∨ a.data.getLast? = some '/' then a ++ b
  else a ++ "/" ++ b

/-- os.path.basename, modelled at the character level: the part of the
path after its last slash. -/
def basename (p : String) : String :=
  String.mk (p.data.foldl (fun acc c => if c = '/' then [] else acc ++ [c]) [])

/-- basename.rsplit with separator dot and maxsplit one, first component:
the string with its last dot-suffix removed, or the string itself when it
has no dot. -/
def rsplit1_head (s : String) : String :=
  let r := s.data.reverse
  if r.contains '.' then String.mk ((r.dropWhile (fun c => c ≠ '.')).drop 1).reverse
  else s

/-- First loop of App.scan_fuo_files: build f_list from config.FUO_FILES,
skipping paths that do not exist, expanding a directory into the regular
files directly inside it, and appending any other existing path as is. -/
def scan_f_list (fs : FS) (fuo_files : List String) : List String :=
  fuo_files.foldl (fun f_list filepath =>
    if fs.exists_ filepath = false then f_list
    else if fs.isdir filepath then
      f_list ++ ((fs.listdir filepath).map (path_join filepath)).filter
        (fun fpath => fs.isfile fpath)
    else f_list ++ [filepath]) []

/-- Second loop of App.scan_fuo_files, restricted to the entries it keeps:
those members of f_list whose basename ends with .fuo. -/
def scan_recognized (fs : FS) (fuo_files : List String) : List String :=
  (scan_f_list fs fuo_files).filter
    (fun fpath => endswith (basename fpath) ".fuo")

/-- The names the second loop of App.scan_fuo_files derives (and then
discards): basename with the extension stripped, for each recognized
file. -/
def scan_names (fs : FS) (fuo_files : List String) : List String :=
  (scan_recognized fs fuo_files).map (fun fpath => rsplit1_head (basename fpath))

/-- The attributes of the App object that a method could mutate (a small
representative selection of the mutable state of App). -/
structure AppState where
  player_pixmap : Option Nat
  playlists : List String
  histories : List String
deriving DecidableEq, Repr

/-- App.scan_fuo_files: builds f_list, derives a name for each recognized
fuo file and discards it; no attribute of the App object is assigned and
nothing is returned. -/
def scan_fuo_files (fs : FS) (fuo_files : List String) (app : AppState) :
    AppState × Unit :=
  let _f_list := scan_f_list fs fuo_files
  let _names := scan_names fs fuo_files
  (app, ())

/-! ## pixmap_from_url -/

/-- The response object returned by self.request.get: its content bytes. -/
structure Response where
  content : List Nat
deriving DecidableEq, Repr

/-- Environment of one pixmap_from_url call: fetch is the result of
self.request.get(url, data) (none when the fetch returns nothing), and
decode models QImage.loadFromData followed by the QPixmap construction,
giving none exactly when the resulting pixmap isNull and the pixmap
otherwise (pixmaps are identified by a Nat). -/
structure RequestEnv where
  fetch : Option Response
  decode : List Nat → Option Nat

/-- App.pixmap_from_url: returns None when the fetch gives no response;
decodes the content; returns None when the pixmap isNull; otherwise calls
the callback with the pixmap when one was supplied and returns the pixmap.
The second component is the list of arguments the callback was invoked
with. -/
def pixmap_from_url (env : RequestEnv) (callback : Option (Nat → Unit)) :
    Option Nat × List Nat :=
  match env.fetch with
  | none => (none, [])
  | some res =>
    match env.decode res.content with
    | none => (none, [])
    | some pixmap =>
      match callback with
      | some _ => (some pixmap, [pixmap])
      | none => (some pixmap, [])

/-! ## player signal handlers -/

/-- Downstream UI calls made by the position and duration handlers. -/
inductive UICall where
  | on_position_changed (value : Int)
  | progress_slider_update_state (value : Int)
  | on_duration_changed (value : Int)
  | progress_slider_set_duration (value : Int)
deriving DecidableEq, Repr

/-- App._on_player_position_changed(ms): forwards ms*1000 to
pc_panel.on_position_changed and to progress_slider.update_state. -/
def on_player_position_changed (ms : Int) : List UICall :=
  [UICall.on_position_changed (ms * 1000),
   UICall.progress_slider_update_state (ms * 1000)]

/-- App._on_player_duration_changed(ms): forwards ms*1000 to
pc_panel.on_duration_changed and to progress_slider.set_duration. -/
def on_player_duration_changed (ms : Int) : List UICall :=
  [UICall.on_duration_changed (ms * 1000),
   UICall.progress_slider_set_duration (ms * 1000)]

/-- The player State enum from fuocore.core.player (an external library of
this application): the states a player can be in. -/
inductive PlayerState where
  | stopped
  | paused
  | playing
deriving DecidableEq, Repr

/-- Icon assignments performed on pp_btn by the status handler. -/
inductive IconCall where
  | setIcon_SP_MediaPause
  | setIcon_SP_MediaPlay
deriving DecidableEq, Repr

/-- App._on_player_status_changed(state): returns early under the mac
theme; otherwise sets the pause icon when the state is playing and the
play icon otherwise. -/
def on_player_status_changed (mac_theme : Bool) (state : PlayerState) :
    List IconCall :=
  if mac_theme then []
  else if state = PlayerState.playing then [IconCall.setIcon_SP_MediaPause]
  else [IconCall.setIcon_SP_MediaPlay]

/-! ## load_qss -/

/-- Stylesheet writes performed by load_qss. -/
inductive QssCall where
  | setStyleSheet (s : String)
deriving DecidableEq, Repr

/-- App.load_qss: returns immediately unless the mac theme is in use;
otherwise reads the content of mac.qss next to the module and applies it
application wide through QApplication.instance().setStyleSheet. -/
def load_qss (mac_theme : Bool) (qss_file_content : String) : List QssCall :=
  if mac_theme = false then []
  else [QssCall.setStyleSheet qss_file_content]

/-- The file system of the C3 scenario: /a/b.fuo is an existing regular
file, /missing does not exist, /dir is a directory whose entries are the
regular files c.fuo and d.txt. -/
def example_fs : FS where
  exists_ := fun p => decide (p = "/a/b.fuo" ∨ p = "/dir")
  isdir := fun p => decide (p = "/dir")
  listdir := fun p => if p = "/dir" then ["c.fuo", "d.txt"] else []
  isfile := fun p =>
    decide (p = "/a/b.fuo" ∨ p = "/dir/c.fuo" ∨ p = "/dir/d.txt")

/-! ## Theorems for the claims -/

/-- C1 counterexample: the claim says closeEvent invokes player stop and
then player shutdown regardless of whether either raises; but when
player.stop() raises, the shared try block jumps to the except clause and
player.shutdown() is never invoked. -/
theorem closeEvent_shutdown_skipped_cex :
    CloseCall.playerShutdown ∉
      (closeEvent (PlayerBehavior.mk (some "RuntimeError") none)).1 := by
  decide

/-- C1 (amended): closeEvent always invokes player stop first; it invokes
player shutdown exactly when stop does not raise; every exception from the
try block is suppressed (none propagates); and it always ends by
requesting application termination. -/
theorem closeEvent_spec (p : PlayerBehavior) :
    (closeEvent p).1.head? = some CloseCall.playerStop ∧
    ((CloseCall.playerShutdown ∈ (closeEvent p).1) ↔ p.stop = none) ∧
    (closeEvent p).2 = none ∧
    (closeEvent p).1.getLast? = some CloseCall.appQuit := by
  obtain ⟨stop, shutdown⟩ := p
  cases stop <;> simp [closeEvent, List.getLast?]

/-- C2: for every label s and every body run inside create_action(s), the
first message shown is s + ... with timeout -1; the last message is
s + ...done when the body completes and s + ...error when it raises; and
the exception of the body, when there is one, propagates unchanged to the
caller. -/
theorem create_action_spec (s : String) (body : BodyRun) :
    (create_action s body).1.head? =
      some (Msg.mk (s ++ "...") (some (-1))) ∧
    (create_action s body).1.getLast? =
      some (match body.outcome with
            | none => Msg.mk (s ++ "...done") none
            | some _ => Msg.mk (s ++ "...error") none) ∧
    (create_action s body).2 = body.outcome := by
  obtain ⟨calls, outcome⟩ := body
  cases outcome with
  | none => exact ⟨rfl, create_action_last_of_none s calls, rfl⟩
  | some e => exact ⟨rfl, create_action_last_of_some s calls e, rfl⟩

/-- C10: calling failed() on the yielded Action handle shows the message
s + ...failed with timeout -1, and does not change the exit behaviour:
when the body then completes without an exception, the last message is
still s + ...done and nothing propagates. -/
theorem create_action_failed_msg (s : String) (pre post : List ActionCall) :
    Msg.mk (s ++ "...failed") (some (-1)) ∈
      (create_action s
        (BodyRun.mk (pre ++ ActionCall.failed :: post) none)).1 ∧
    (create_action s
        (BodyRun.mk (pre ++ ActionCall.failed :: post) none)).1.getLast? =
      some (Msg.mk (s ++ "...done") none) ∧
    (create_action s (BodyRun.mk (pre ++ ActionCall.failed :: post) none)).2
      = none := by
  refine ⟨?_, create_action_last_of_none s (pre ++ ActionCall.failed :: post),
    rfl⟩
  simp only [create_action, List.mem_append, List.mem_map, List.mem_cons]
  exact Or.inl (Or.inr ⟨ActionCall.failed, Or.inr (Or.inl rfl), rfl⟩)

/-- C3: on the scenario of example_fs with configured paths /a/b.fuo,
/missing and /dir, scan_fuo_files recognizes exactly /a/b.fuo and
/dir/c.fuo, in that order: the missing path is silently skipped, the
directory is expanded non-recursively into its regular files, and, in
general, every recognized entry has a basename ending with .fuo. -/
theorem scan_fuo_files_example :
    scan_recognized example_fs ["/a/b.fuo", "/missing", "/dir"] =
      ["/a/b.fuo", "/dir/c.fuo"] ∧
    (∀ (fs : FS) (paths : List String),
      (scan_recognized fs paths).all
        (fun fpath => endswith (basename fpath) ".fuo") = true) := by
  refine ⟨by decide, ?_⟩
  intro fs paths
  simp only [scan_recognized, List.all_eq_true]
  intro p hp
  exact (List.mem_filter.mp hp).2

/-- C9: scan_fuo_files has no side effect on the App state: for every
file system and every configured path list it returns the App state
unchanged and produces no result. -/
theorem scan_fuo_files_no_side_effect (fs : FS) (fuo_files : List String)
    (app : AppState) : scan_fuo_files fs fuo_files app = (app, ()) := rfl

/-- C4: pixmap_from_url returns None when the fetch gives no response
object, and returns None when decoding the fetched bytes yields a null
image; in both failure cases the callback is never invoked, and the
function returns instead of raising. -/
theorem pixmap_from_url_failure (env : RequestEnv)
    (callback : Option (Nat → Unit))
    (h : env.fetch = none ∨
      ∃ res, env.fetch = some res ∧ env.decode res.content = none) :
    pixmap_from_url env callback = (none, []) := by
  obtain h | ⟨res, hf, hd⟩ := h
  · simp [pixmap_from_url, h]
  · simp [pixmap_from_url, hf, hd]

/-- C4 witness: a concrete environment whose fetch succeeds but whose
decode yields a null pixmap. -/
theorem pixmap_from_url_failure_witness :
    pixmap_from_url (RequestEnv.mk (some (Response.mk [7])) (fun _ => none))
      none = (none, []) :=
  pixmap_from_url_failure _ none (Or.inr ⟨Response.mk [7], rfl, rfl⟩)

/-- C8: when the fetch succeeds and decoding yields a non-null pixmap,
pixmap_from_url invokes the callback exactly once with that pixmap when
one is supplied (and not at all otherwise) and returns the same pixmap. -/
theorem pixmap_from_url_success (env : RequestEnv)
    (callback : Option (Nat → Unit)) (res : Response) (pm : Nat)
    (hf : env.fetch = some res) (hd : env.decode res.content = some pm) :
    pixmap_from_url env callback =
      (some pm, match callback with | some _ => [pm] | none => []) := by
  cases callback <;> simp [pixmap_from_url, hf, hd]

/-- C8 witness: a concrete environment whose fetch and decode succeed,
with a supplied callback; the callback is invoked once with pixmap 9. -/
theorem pixmap_from_url_success_witness :
    pixmap_from_url (RequestEnv.mk (some (Response.mk [3])) (fun _ => some 9))
      (some (fun _ => ())) = (some 9, [9]) :=
  pixmap_from_url_success _ (some (fun _ => ())) (Response.mk [3]) 9 rfl rfl

/-- C5: for every non-negative ms, the position handler forwards ms*1000
and nothing else to the two downstream position updates, and the duration
handler forwards ms*1000 and nothing else to the two downstream duration
updates. -/
theorem player_time_unit_forwarding (ms : Int) (_h : 0 ≤ ms) :
    on_player_position_changed ms =
      [UICall.on_position_changed (ms * 1000),
       UICall.progress_slider_update_state (ms * 1000)] ∧
    on_player_duration_changed ms =
      [UICall.on_duration_changed (ms * 1000),
       UICall.progress_slider_set_duration (ms * 1000)] :=
  ⟨rfl, rfl⟩

/-- C5 witness: input 5 is forwarded as 5000 by both handlers. -/
theorem player_time_unit_forwarding_witness :
    (0 : Int) ≤ 5 ∧
    on_player_position_changed 5 =
      [UICall.on_position_changed 5000,
       UICall.progress_slider_update_state 5000] ∧
    on_player_duration_changed 5 =
      [UICall.on_duration_changed 5000,
       UICall.progress_slider_set_duration 5000] :=
  ⟨by decide, by simpa using player_time_unit_forwarding 5 (by decide)⟩

/-- C6: the status handler sets no icon at all under the mac theme;
otherwise it sets the pause icon exactly when the state is playing and the
play icon for every other state. -/
theorem player_status_icon (state : PlayerState) :
    on_player_status_changed true state = [] ∧
    on_player_status_changed false state =
      (if state = PlayerState.playing then [IconCall.setIcon_SP_MediaPause]
       else [IconCall.setIcon_SP_MediaPlay]) := by
  cases state <;> simp [on_player_status_changed]

/-- C7: load_qss applies the qss file content application wide exactly
when the mac theme condition holds; otherwise it performs no observable
effect. -/
theorem load_qss_spec (content : String) :
    load_qss true content = [QssCall.setStyleSheet content] ∧
    load_qss false content = [] :=
  ⟨rfl, rfl⟩

end Feeluown
